import Mathlib

/-!
Formal model of the ethstr core contracts (packages/hardhat/contracts):
BIP340 Schnorr verification utilities (`BIP340Util`, `BIP340Ecrec`),
the Nostr signature libraries (`NostrSignatures`, both variants in the tree),
the hex-string encoder (`HexStrings`), the account factory
(`NpubAccountFactory`) and the account initialization logic (`NpubAccount`).

Solidity `uint256` values are modelled as `Nat` with explicit `% 2^256`
reductions where overflow or truncation matters; byte strings are `List Nat`
(each element a byte value); reverting calls return `Except`.
The EVM host primitives `sha256`, `keccak256` and `ecrecover` are external
to the repository; they are modelled as components of an explicit
environment record (`Env`) that the translated functions take as an argument.
-/

namespace Ethstr

/-- Constants of `Secp256k1.sol`: field prime `PP`. -/
def PP : Nat := 0xFFFFFFFFFFFFFFFFFFFFFFFFFFFFFFFFFFFFFFFFFFFFFFFFFFFFFFFEFFFFFC2F

/-- Constants of `Secp256k1.sol`: curve order `NN`. -/
def NN : Nat := 0xFFFFFFFFFFFFFFFFFFFFFFFFFFFFFFFEBAAEDCE6AF48A03BBFD25E8CD0364141

/-- Constants of `Secp256k1.sol`: curve coefficient `AA` (zero for secp256k1). -/
def AA : Nat := 0

/-- Constants of `Secp256k1.sol`: curve coefficient `BB` (seven for secp256k1). -/
def BB : Nat := 7

/-- Constants of `Secp256k1.sol`: generator x-coordinate `GX`. -/
def GX : Nat := 0x79BE667EF9DCBBAC55A06295CE870B07029BFCDB2DCE28D959F2815B16F81798

/-- EVM `mulmod(a, b, m)`: `a * b % m`, yielding 0 when the modulus is 0. -/
def mulmod (a b m : Nat) : Nat := if m = 0 then 0 else a * b % m

/-- EVM `addmod(a, b, m)`: `a + b % m`, yielding 0 when the modulus is 0. -/
def addmod (a b m : Nat) : Nat := if m = 0 then 0 else (a + b) % m

/-- Binary modular exponentiation with an explicit fuel argument; the fuel
bounds the number of halvings of the exponent, so fuel 256 is exact for any
exponent below `2 ^ 256`. -/
def powModAux : Nat → Nat → Nat → Nat → Nat
  | 0, _, _, m => 1 % m
  | fuel + 1, b, e, m =>
    if e = 0 then 1 % m
    else if e % 2 = 1 then b * powModAux fuel (b * b % m) (e / 2) m % m
    else powModAux fuel (b * b % m) (e / 2) m

/-- Modelled from the spec: `EllipticCurve.expMod` of the vendored witnet
`EllipticCurve.sol` (imported by `Bip340Ecrec.sol` but not present in the
source tree). Per spec §4.1 it is `modPow`, standard modular exponentiation;
all exponents appearing in this system are `uint256` values, for which fuel
256 computes exactly `b ^ e % m` (see `expMod_eq_pow`). -/
def expMod (b e m : Nat) : Nat := powModAux 256 b e m

theorem powModAux_lt (fuel b e m : Nat) (hm : 0 < m) : powModAux fuel b e m < m := by
  induction fuel generalizing b e with
  | zero => exact Nat.mod_lt _ hm
  | succ f ih =>
    simp only [powModAux]
    split
    · exact Nat.mod_lt _ hm
    · split
      · exact Nat.mod_lt _ hm
      · exact ih _ _

theorem powModAux_eq_pow (fuel : Nat) :
    ∀ b e m : Nat, 0 < m → e < 2 ^ fuel → powModAux fuel b e m = b ^ e % m := by
  induction fuel with
  | zero =>
    intro b e m hm he
    have he0 : e = 0 := by simpa [Nat.lt_one_iff] using he
    simp [powModAux, he0]
  | succ f ih =>
    intro b e m hm he
    by_cases h0 : e = 0
    · simp [powModAux, h0]
    · have hhalf : e / 2 < 2 ^ f := by
        have h2 : e < 2 ^ f * 2 := by rw [← Nat.pow_succ]; exact he
        omega
      have hrec := ih (b * b % m) (e / 2) m hm hhalf
      have hsq : (b * b % m) ^ (e / 2) % m = b ^ (2 * (e / 2)) % m := by
        rw [← Nat.pow_mod, pow_mul, pow_two]
      simp only [powModAux, if_neg h0]
      rw [hrec, hsq]
      rcases Nat.even_or_odd e with he2 | he2
      · obtain ⟨k, hk⟩ := he2
        subst hk
        have hd : (k + k) / 2 = k := by omega
        rw [if_neg (by omega), hd, two_mul]
      · obtain ⟨k, hk⟩ := he2
        subst hk
        have hd : (2 * k + 1) / 2 = k := by omega
        rw [if_pos (by omega), hd, Nat.mul_mod b (b ^ (2 * k) % m) m,
          Nat.mod_mod_of_dvd _ dvd_rfl, ← Nat.mul_mod, ← pow_succ']

/-- Genuineness of the spec-modelled `expMod`: on every `uint256` exponent it
computes exactly `b ^ e % m`. -/
theorem expMod_eq_pow (b e m : Nat) (hm : 0 < m) (he : e < 2 ^ 256) :
    expMod b e m = b ^ e % m :=
  powModAux_eq_pow 256 b e m hm he

theorem expMod_lt (b e : Nat) {m : Nat} (hm : 0 < m) : expMod b e m < m :=
  powModAux_lt 256 b e m hm

/-- Translation of `BIP340Util.liftX` (`Bip340Ecrec.sol` lines 58-84):
range check, `y² = x³ + a·x + b` via `addmod`/`mulmod`, candidate root via
`expMod(·, (p+1)/4, p)`, then the even representative.  Note that the code
reports success for every `x < p` without re-squaring the candidate root. -/
def liftX (x : Nat) : Nat × Bool :=
  if x ≥ PP then (0, false)
  else
    let ySquared := addmod (mulmod x (mulmod x x PP) PP) (addmod (mulmod x AA PP) BB PP) PP
    let root := expMod ySquared ((PP + 1) / 4) PP
    (if root &&& 1 = 0 then root else PP - root, true)

/-- EVM host primitives as seen by the contracts: the `sha256` and
`keccak256` hash builtins (byte string to 256-bit word) and the `ecrecover`
precompile (hash, v, r, s to 160-bit address, with 0 denoting failure).
They are external to the repository, so the translated functions are
parametrized by this record. -/
structure Env where
  sha256 : List Nat → Nat
  keccak256 : List Nat → Nat
  ecrecover : Nat → Nat → Nat → Nat → Nat

/-- Big-endian 32-byte encoding of a `uint256` / `bytes32` value, as produced
by `abi.encodePacked` for a 32-byte word. -/
def be32 (v : Nat) : List Nat := (List.range 32).map fun i => v / 256 ^ (31 - i) % 256

/-- Big-endian 20-byte encoding of an address, as produced by
`abi.encodePacked` for an `address` value. -/
def be20 (v : Nat) : List Nat := (List.range 20).map fun i => v / 256 ^ (19 - i) % 256

/-- Precomputed SHA256 of the "BIP0340/challenge" tag (`Bip340Ecrec.sol`
line 20). -/
def BIP340_CHALLENGE_TAG : Nat :=
  0x7bb52d7a9fef58323eb1bf7a407db382d2f3f2d81bb1224f49fe518f6d48d37c

/-- Translation of `BIP340Util.computeChallenge` (`Bip340Ecrec.sol` lines
40-48): `sha256(tag ‖ tag ‖ rx ‖ px ‖ m)` reduced mod the curve order. -/
def computeChallenge (env : Env) (rx px m : Nat) : Nat :=
  env.sha256
      (be32 BIP340_CHALLENGE_TAG ++ be32 BIP340_CHALLENGE_TAG ++ be32 rx ++ be32 px ++ be32 m)
    % NN

/-- Translation of `Bip340Util.convToFakeAddr` (`Bip340Ecrec.sol` lines
112-121): lift the x-coordinate and take the low 160 bits of
`keccak256(px ‖ py)` as the "fake address" of the lifted point. -/
def convToFakeAddr (env : Env) (px : Nat) : Nat × Bool :=
  let lifted := liftX px
  if lifted.2 then (env.keccak256 (be32 px ++ be32 lifted.1) % 2 ^ 160, true)
  else (0, false)

/-- Translation of `BIP340Ecrec.verify` (`Bip340Ecrec.sol` lines 155-188):
range checks, conversion of the signature point to a fake address, challenge
computation, and the single `ecrecover` call with recovery id 27. -/
def verify (env : Env) (px rx s m : Nat) : Bool :=
  if px ≥ PP ∨ rx ≥ PP ∨ s ≥ NN then false
  else
    let conv := convToFakeAddr env rx
    if conv.2 = false then false
    else
      let e := computeChallenge env rx px m
      let sp := NN - mulmod s px NN
      let ep := NN - mulmod e px NN
      env.ecrecover sp 27 px ep == conv.1

/-- Host operations that `BIP340Ecrec.verify` may perform after its range
check: point lifting, challenge hashing, and the `ecrecover` call. -/
inductive PrimOp where
  | liftPoint : PrimOp
  | challenge : PrimOp
  | ecrecoverCall : PrimOp
deriving DecidableEq, Repr

/-- Instrumented translation of `BIP340Ecrec.verify`: identical control flow
to `verify`, additionally returning the list of host operations performed,
in order. -/
def verifyTr (env : Env) (px rx s m : Nat) : Bool × List PrimOp :=
  if px ≥ PP ∨ rx ≥ PP ∨ s ≥ NN then (false, [])
  else
    let conv := convToFakeAddr env rx
    if conv.2 = false then (false, [.liftPoint])
    else
      let e := computeChallenge env rx px m
      let sp := NN - mulmod s px NN
      let ep := NN - mulmod e px NN
      (env.ecrecover sp 27 px ep == conv.1, [.liftPoint, .challenge, .ecrecoverCall])

/-- Translation of the hex digit conversion in `HexStrings.toHexString`
(assembly block): `0x30 + nibble`, switched to `0x57 + nibble` for nibbles
above 9, which yields the lowercase letters a-f. -/
def toHexChar (nibble : Nat) : Nat := if nibble > 9 then 0x57 + nibble else 0x30 + nibble

/-- Translation of the assembly loop of `HexStrings.toHexString`: the
iteration writing position `i - 1` from the current low nibble and then
shifting the value right by 4 bits, accumulated right-to-left. -/
def hexLoop : Nat → Nat → List Nat → List Nat
  | 0, _, acc => acc
  | i + 1, v, acc => hexLoop i (v / 16) (toHexChar (v % 16) :: acc)

/-- Translation of `HexStrings.toHexString` (`utils/HexStrings.sol`):
a fixed-width 64-character lowercase hex encoding of a `uint256`. -/
def toHexString (value : Nat) : List Nat := hexLoop 64 value []

/-- Lowercase hex digit as the spec words it ("64 lowercase zero-padded hex
characters"): digits 0-9 then letters a-f. -/
def specHexDigit (d : Nat) : Nat := if d < 10 then 48 + d else 87 + d

/-- Spec-side fixed-width hex encoding, written from the spec's words:
64 lowercase, zero-padded hex characters, most significant nibble first,
no 0x prefix. Used only to compare against the source-translated
`toHexString`. -/
def specHex64 (v : Nat) : List Nat :=
  (List.range 64).map fun j => specHexDigit (v / 16 ^ (63 - j) % 16)

/-- UTF-8 bytes of a string literal (all literals used here are ASCII). -/
def strBytes (s : String) : List Nat := s.data.map Char.toNat

/-- Translation of the `signMessage` construction inside
`NostrSignatures.verifyNostrSignature` (`packages/hardhat/contracts/
NostrSignatures.sol` lines 14-20): the Nostr event byte string
`[0,"<owner hex>",0,96024,[],"<userOpHash hex>"]`. -/
def signMessage (owner userOpHash : Nat) : List Nat :=
  strBytes "[0,\"" ++ toHexString owner ++ strBytes "\",0,96024,[],\""
    ++ toHexString userOpHash ++ strBytes "\"]"

/-- Spec-side canonical authenticated message, written from the spec's words
(§4.4): the exact UTF-8 byte string
`[0,"<64-hex-lowercase owner>",0,96024,[],"<64-hex-lowercase digest>"]`
with no embedded whitespace. Used only to compare against the
source-translated `signMessage`. -/
def specCanonicalMessage (owner digest : Nat) : List Nat :=
  strBytes "[0,\"" ++ specHex64 owner ++ strBytes "\",0,96024,[],\""
    ++ specHex64 digest ++ strBytes "\"]"

/-- Decimal digits of a value, least significant first, with fuel bounding
the digit count (78 suffices for any `uint256`). -/
def decDigitsAux : Nat → Nat → List Nat
  | 0, _ => []
  | fuel + 1, v => if v = 0 then [] else (48 + v % 10) :: decDigitsAux fuel (v / 10)

/-- Translation of `NostrSignatures._uintToString` (the library variant in
`src/unnamed/part_000` lines 127-152): decimal ASCII rendering with the
zero special case. -/
def uintToString (value : Nat) : List Nat :=
  if value = 0 then [48] else (decDigitsAux 78 value).reverse

/-- Event kind constant `NOSTR_AUTH_KIND` of the library variant. -/
def NOSTR_AUTH_KIND : Nat := 96024

/-- Timestamp constant `NOSTR_CREATED_AT` of the library variant. -/
def NOSTR_CREATED_AT : Nat := 0

/-- Tags constant `NOSTR_TAGS` of the library variant. -/
def NOSTR_TAGS : List Nat := strBytes "[]"

/-- Translation of the `nostrEventMessage` construction used by both entry
points of the library variant of `NostrSignatures`
(`src/unnamed/part_000` lines 77-91 and 173-187). -/
def nostrEventMessage (owner userOpHash : Nat) : List Nat :=
  strBytes "[" ++ uintToString NOSTR_CREATED_AT ++ strBytes ",\"" ++ toHexString owner
    ++ strBytes "\"," ++ uintToString NOSTR_CREATED_AT ++ strBytes ","
    ++ uintToString NOSTR_AUTH_KIND ++ strBytes "," ++ NOSTR_TAGS ++ strBytes ",\""
    ++ toHexString userOpHash ++ strBytes "\"]"

/-- Big-endian interpretation of a byte list as a natural number; models the
`mload` extraction of the 32-byte `Rx` and `s` words from the signature. -/
def beBytesToNat (bs : List Nat) : Nat := bs.foldl (fun a b => a * 256 + b) 0

/-- Typed errors of the library variant of `NostrSignatures`
(`src/unnamed/part_000` lines 31-40). -/
inductive NostrError where
  | invalidSignatureLength : NostrError
  | invalidOwnerAddress : NostrError
  | signatureVerificationFailed : NostrError
deriving DecidableEq, Repr

namespace NostrLib

/-- Translation of the strict `NostrSignatures.verifyNostrSignature`
(`src/unnamed/part_000` lines 61-117): reverts with a typed error on bad
signature length, zero owner, or failed verification; returns true
otherwise. -/
def verifyNostrSignature (env : Env) (owner : Nat) (signature : List Nat)
    (userOpHash : Nat) : Except NostrError Bool :=
  if signature.length ≠ 64 then .error .invalidSignatureLength
  else if owner = 0 then .error .invalidOwnerAddress
  else
    let messageHash := env.sha256 (nostrEventMessage owner userOpHash)
    let signatureR := beBytesToNat (signature.take 32)
    let signatureS := beBytesToNat ((signature.drop 32).take 32)
    if verify env owner signatureR signatureS messageHash then .ok true
    else .error .signatureVerificationFailed

/-- Translation of the tolerant `NostrSignatures.tryVerifyNostrSignature`
(`src/unnamed/part_000` lines 162-207): returns false instead of reverting
on bad signature length or zero owner, then returns the verification
result. -/
def tryVerifyNostrSignature (env : Env) (owner : Nat) (signature : List Nat)
    (userOpHash : Nat) : Bool :=
  if signature.length ≠ 64 ∨ owner = 0 then false
  else
    let messageHash := env.sha256 (nostrEventMessage owner userOpHash)
    let signatureR := beBytesToNat (signature.take 32)
    let signatureS := beBytesToNat ((signature.drop 32).take 32)
    verify env owner signatureR signatureS messageHash

end NostrLib

namespace NostrSigs

/-- Translation of the account-facing `NostrSignatures.verifyNostrSignature`
(`packages/hardhat/contracts/NostrSignatures.sol` lines 9-31): a `require`
on the signature length, then a pure computation whose boolean result is
returned.  A revert is an `Except.error` carrying the require message. -/
def verifyNostrSignature (env : Env) (owner : Nat) (signature : List Nat)
    (userOpHash : Nat) : Except String Bool :=
  if signature.length ≠ 64 then .error "account: Invalid sig len"
  else
    let sigHash := env.sha256 (signMessage owner userOpHash)
    let rx := beBytesToNat (signature.take 32)
    let s := beBytesToNat ((signature.drop 32).take 32)
    .ok (verify env owner rx s sigHash)

end NostrSigs

/-- ERC-4337 validation result constants used by `NpubAccount`. -/
def SIG_VALIDATION_SUCCESS : Nat := 0

/-- ERC-4337 validation failure constant used by `NpubAccount`. -/
def SIG_VALIDATION_FAILED : Nat := 1

/-- Translation of `NpubAccount._validateSignature`
(`packages/hardhat/contracts/NostrSignatures.sol` second unit, lines
188-197): calls the account-facing verifier and maps its boolean to the
ERC-4337 validation constants; a revert of the verifier propagates. -/
def validateSignature (env : Env) (owner : Nat) (signature : List Nat)
    (userOpHash : Nat) : Except String Nat :=
  match NostrSigs.verifyNostrSignature env owner signature userOpHash with
  | .ok true => .ok SIG_VALIDATION_SUCCESS
  | .ok false => .ok SIG_VALIDATION_FAILED
  | .error e => .error e

/-- Deployment context of `NpubAccountFactory`: the hash environment plus
the immutable data entering the CREATE2 derivation — the factory's own
address, the `accountImplementation` address, and the `ERC1967Proxy`
creation bytecode. -/
structure FactoryCtx where
  env : Env
  selfAddr : Nat
  implAddr : Nat
  proxyCreationCode : List Nat

/-- Zero-padding of a byte string to a multiple of 32 bytes, as ABI encoding
does for the tail of a dynamic `bytes` argument. -/
def padRight32 (bs : List Nat) : List Nat :=
  bs ++ List.replicate ((32 - bs.length % 32) % 32) 0

/-- ABI encoding of an `(address, bytes)` pair: one head word for the
address, one offset word, then the length-prefixed padded payload. -/
def abiEncodeAddressBytes (a : Nat) (data : List Nat) : List Nat :=
  be32 a ++ be32 64 ++ be32 data.length ++ padRight32 data

/-- Calldata of `abi.encodeCall(NpubAccount.<init>, (owner))`: the 4-byte
selector of the account initialization function followed by the owner word.
The selector is the first 4 bytes of the keccak256 of the function
signature, per the ABI specification. -/
def initCalldata (env : Env) (owner : Nat) : List Nat :=
  (be32 (env.keccak256 (strBytes "initialize(uint256)"))).take 4 ++ be32 owner

/-- Translation of `NpubAccountFactory.getAddress`
(`NpubAccountFactory.sol` lines 110-121): the CREATE2 counterfactual
address `keccak256(0xff ‖ factory ‖ salt ‖ keccak256(initcode))[12..]`,
where the initcode is the proxy creation code followed by the ABI-encoded
`(implementation, initialization calldata)` pair.  The function reads no
contract storage (only immutables), so it takes no chain state. -/
def getAddress (ctx : FactoryCtx) (owner salt : Nat) : Nat :=
  let initCodeHash := ctx.env.keccak256
    (ctx.proxyCreationCode ++ abiEncodeAddressBytes ctx.implAddr (initCalldata ctx.env owner))
  ctx.env.keccak256 ([0xff] ++ be20 ctx.selfAddr ++ be32 salt ++ be32 initCodeHash) % 2 ^ 160

/-- On-chain state visible to the factory: which addresses carry code, and
the owner word stored in each deployed account's storage. -/
structure Chain where
  code : Nat → Bool
  ownerOf : Nat → Nat

/-- Typed error of `NpubAccountFactory` relevant to account creation
(`NpubAccountFactory.sol` line 53). -/
inductive FactoryError where
  | accountCreationFailed : FactoryError
deriving DecidableEq, Repr

/-- Translation of `NpubAccountFactory.createAccount`
(`NpubAccountFactory.sol` lines 81-103): compute the counterfactual
address; if code already exists there, return it with `isNew = false`;
otherwise deploy the proxy with CREATE2.  The proxy constructor
delegate-calls the account initialization with the given owner, which
reverts exactly when `owner = 0` (`InvalidOwner`, `NostrSignatures.sol`
second unit lines 165-171); the surrounding `try`/`catch` turns any such
constructor revert into `AccountCreationFailed`, rolling back all state. -/
def createAccount (ctx : FactoryCtx) (ch : Chain) (owner salt : Nat) :
    Except FactoryError (Chain × Nat × Bool) :=
  let addr := getAddress ctx owner salt
  if ch.code addr then .ok (ch, addr, false)
  else if owner = 0 then .error .accountCreationFailed
  else
    .ok ({ code := fun a => if a = addr then true else ch.code a,
           ownerOf := fun a => if a = addr then owner else ch.ownerOf a },
         addr, true)

/-- Chain state after a `createAccount` call, with EVM revert semantics:
an error leaves the pre-call state in place. -/
def runCreateAccount (ctx : FactoryCtx) (ch : Chain) (owner salt : Nat) : Chain :=
  match createAccount ctx ch owner salt with
  | .ok (ch2, _, _) => ch2
  | .error _ => ch

/-- Storage of one `NpubAccount`: the owner word, the OpenZeppelin
initialization flag, and the EntryPoint deposit balance. -/
structure AccountState where
  owner : Nat
  inited : Bool
  deposit : Nat

/-- Typed errors of `NpubAccount` reachable through the modelled
operations (`NostrSignatures.sol` second unit lines 84-102). -/
inductive AccountError where
  | invalidOwner : AccountError
  | invalidInit : AccountError
  | zeroDepositAmount : AccountError
  | invalidWithdrawAddress : AccountError
  | insufficientDeposit : AccountError
deriving DecidableEq, Repr

/-- State-mutating operations of `NpubAccount`: owner initialization
(`initialize`/`_initialize`), deposits, and withdrawals.  Signature
validation reads but never writes account storage and is modelled
separately (`validateSignature`). -/
inductive AccountOp where
  | initOwner : Nat → AccountOp
  | addDeposit : Nat → AccountOp
  | withdrawDepositTo : Nat → Nat → AccountOp
deriving DecidableEq, Repr

/-- Translation of the state-mutating entry points of `NpubAccount`
(`NostrSignatures.sol` second unit): `initialize` (lines 158-171, guarded
by the OpenZeppelin initializer flag, rejecting a zero owner), `addDeposit`
(lines 209-220) and `withdrawDepositTo` (lines 226-241).  Only owner
initialization ever writes the owner word. -/
def accStep (st : AccountState) : AccountOp → Except AccountError AccountState
  | .initOwner anOwner =>
    if st.inited then .error .invalidInit
    else if anOwner = 0 then .error .invalidOwner
    else .ok { owner := anOwner, inited := true, deposit := st.deposit }
  | .addDeposit v =>
    if v = 0 then .error .zeroDepositAmount
    else .ok { st with deposit := st.deposit + v }
  | .withdrawDepositTo dest amount =>
    if dest = 0 then .error .invalidWithdrawAddress
    else if amount > st.deposit then .error .insufficientDeposit
    else .ok { st with deposit := st.deposit - amount }

/-- Concrete hash environment used to instantiate witnesses: a simple
injective-on-short-inputs folding digest standing in for the host hashes.
No theorem below depends on any property of these functions. -/
def env0 : Env :=
  { sha256 := fun bs => bs.foldl (fun a b => (a * 256 + b + 1) % 2 ^ 256) 0
    keccak256 := fun bs => bs.foldl (fun a b => (a * 256 + b + 2) % 2 ^ 256) 0
    ecrecover := fun _ _ _ _ => 0 }

/-- Concrete factory context used to instantiate witnesses. -/
def ctx0 : FactoryCtx :=
  { env := env0, selfAddr := 0x1234, implAddr := 0x5678, proxyCreationCode := [0x60, 0x80] }

/-- Chain state with no deployed code, used to instantiate witnesses. -/
def emptyChain : Chain := { code := fun _ => false, ownerOf := fun _ => 0 }

/-- Chain state after deploying the account for owner 1, salt 0 in the
witness context; written exactly as `createAccount` constructs it. -/
def chain1 : Chain :=
  { code := fun a => if a = getAddress ctx0 1 0 then true else emptyChain.code a,
    ownerOf := fun a => if a = getAddress ctx0 1 0 then 1 else emptyChain.ownerOf a }

/-!
## Theorems

Supporting lemmas first, then one theorem per claim (with its witness or
counterexample where applicable).
-/

theorem PP_pos : 0 < PP := by decide

theorem PP_odd : PP % 2 = 1 := by decide

/-- C2 (amended). For every x in [0, p): liftX is deterministic (it is a
pure function of x), it reports ok = true, and the returned y is even.
The equation y² ≡ x³ + 7 (mod p) is not part of this theorem: the code
omits the quadratic-residue re-check, so the equation fails whenever
x³ + 7 is a non-residue (see the counterexample below). -/
theorem liftX_deterministic_ok_even (x : Nat) (hx : x < PP) :
    (liftX x).2 = true ∧ (liftX x).1 % 2 = 0 := by
  have hroot := expMod_lt (addmod (mulmod x (mulmod x x PP) PP) (addmod (mulmod x AA PP) BB PP) PP)
    ((PP + 1) / 4) PP_pos
  simp only [liftX, ge_iff_le, if_neg (not_le.mpr hx)]
  set r := expMod (addmod (mulmod x (mulmod x x PP) PP) (addmod (mulmod x AA PP) BB PP) PP)
    ((PP + 1) / 4) PP with hr
  simp only [Nat.and_one_is_mod]
  by_cases hb : r % 2 = 0
  · simp [hb]
  · simp only [if_neg hb]
    have hPPodd := PP_odd
    exact ⟨trivial, by omega⟩

/-- C2 witness: the generator x-coordinate is below p and satisfies the
amended statement. -/
theorem liftX_deterministic_ok_even_witness :
    GX < PP ∧ ((liftX GX).2 = true ∧ (liftX GX).1 % 2 = 0) :=
  ⟨by decide, liftX_deterministic_ok_even GX (by decide)⟩

set_option maxRecDepth 4000 in
/-- C2 counterexample: at x = 0 (which is below p), liftX reports success,
yet the returned y does not satisfy y² ≡ x³ + 7 (mod p) — indeed 7 is not
a quadratic residue mod p, so no y does. -/
theorem liftX_residue_check_missing_cex :
    (liftX 0).2 = true ∧ ¬ ((liftX 0).1 ^ 2 % PP = (0 ^ 3 + 7) % PP) := by decide

/-- C3. When px ≥ p, rx ≥ p, or s ≥ n, `BIP340Ecrec.verify` returns false,
and the instrumented translation shows that no point lifting, no challenge
hashing, and no ecrecover call is performed (empty operation trace). -/
theorem verify_rejects_out_of_range_without_hashing (env : Env) (px rx s m : Nat)
    (h : px ≥ PP ∨ rx ≥ PP ∨ s ≥ NN) :
    verify env px rx s m = false ∧ verifyTr env px rx s m = (false, []) := by
  constructor
  · simp only [verify, if_pos h]
  · simp only [verifyTr, if_pos h]

/-- C3 witness: at px = p (and rx = s = 0) the range hypothesis holds and
the verifier rejects with an empty operation trace. -/
theorem verify_rejects_out_of_range_without_hashing_witness :
    (PP ≥ PP ∨ (0 : Nat) ≥ PP ∨ (0 : Nat) ≥ NN) ∧
    (verify env0 PP 0 0 0 = false ∧ verifyTr env0 PP 0 0 0 = (false, [])) :=
  ⟨Or.inl (le_refl PP),
   verify_rejects_out_of_range_without_hashing env0 PP 0 0 0 (Or.inl (le_refl PP))⟩

theorem toHexChar_eq_specHexDigit (d : Nat) : toHexChar d = specHexDigit d := by
  simp only [toHexChar, specHexDigit]
  split <;> split <;> omega

theorem hexLoop_eq (k : Nat) :
    ∀ v acc, hexLoop k v acc =
      ((List.range k).map fun j => toHexChar (v / 16 ^ (k - 1 - j) % 16)) ++ acc := by
  induction k with
  | zero => intro v acc; simp [hexLoop]
  | succ k ih =>
    intro v acc
    rw [hexLoop, ih, List.range_succ, List.map_append]
    simp only [List.map_cons, List.map_nil, List.append_assoc, List.singleton_append]
    congr 1
    · refine List.map_congr_left fun j hj => ?_
      have hjk : j < k := List.mem_range.mp hj
      have hdiv : v / 16 / 16 ^ (k - 1 - j) = v / 16 ^ (k + 1 - 1 - j) := by
        rw [Nat.div_div_eq_div_mul]
        congr 1
        rw [← pow_succ']
        congr 1
        omega
      rw [hdiv]
    · have h0 : k + 1 - 1 - k = 0 := by omega
      rw [h0, pow_zero, Nat.div_one]

theorem toHexString_eq_specHex64 (v : Nat) : toHexString v = specHex64 v := by
  rw [toHexString, hexLoop_eq, List.append_nil, specHex64]
  refine List.map_congr_left fun j hj => ?_
  rw [toHexChar_eq_specHexDigit]

theorem specHexDigit_clean (d : Nat) (hd : d < 16) :
    (specHexDigit d != 32 && specHexDigit d != 9 && specHexDigit d != 10 &&
      specHexDigit d != 13 && specHexDigit d != 120) = true := by
  interval_cases d <;> rfl

theorem toHexString_clean (v : Nat) :
    ((toHexString v).all fun b =>
      b != 32 && b != 9 && b != 10 && b != 13 && b != 120) = true := by
  rw [toHexString_eq_specHex64, specHex64, List.all_eq_true]
  intro x hx
  obtain ⟨j, _, rfl⟩ := List.mem_map.mp hx
  exact specHexDigit_clean _ (Nat.mod_lt _ (by omega))

/-- C4. The canonical authenticated message built by
`NostrSignatures.verifyNostrSignature` before hashing is exactly the byte
string `[0,"<owner as 64 lowercase zero-padded hex>",0,96024,[],"<digest as
64 lowercase zero-padded hex>"]` as the spec words it, and it contains no
whitespace byte (space, tab, LF, CR) and no letter x (so no 0x prefix).
Determinism is inherent: `signMessage` is a pure function of its inputs, so
identical inputs give a byte-identical string and hence an identical
SHA-256 digest. -/
theorem signMessage_matches_spec_canonical (owner digest : Nat) :
    signMessage owner digest = specCanonicalMessage owner digest ∧
    ((signMessage owner digest).all fun b =>
      b != 32 && b != 9 && b != 10 && b != 13 && b != 120) = true := by
  constructor
  · rw [signMessage, specCanonicalMessage, toHexString_eq_specHex64, toHexString_eq_specHex64]
  · rw [signMessage]
    simp only [List.all_append, toHexString_clean]
    rfl

/-- C5 (amended). For every nonzero owner and every salt, starting from a
state with no account at the derived address, calling `createAccount` twice
yields `isNew = true` then `isNew = false`, both calls returning the
identical derived address.  (For owner = 0 the first call reverts instead —
see the counterexample.) -/
theorem createAccount_twice_idempotent (ctx : FactoryCtx) (ch : Chain) (owner salt : Nat)
    (howner : owner ≠ 0) (habsent : ch.code (getAddress ctx owner salt) = false) :
    ∃ ch2 : Chain,
      createAccount ctx ch owner salt = .ok (ch2, getAddress ctx owner salt, true) ∧
      createAccount ctx ch2 owner salt = .ok (ch2, getAddress ctx owner salt, false) := by
  refine ⟨{ code := fun a => if a = getAddress ctx owner salt then true else ch.code a,
            ownerOf := fun a => if a = getAddress ctx owner salt then owner else ch.ownerOf a },
          ?_, ?_⟩
  · simp only [createAccount, habsent, Bool.false_eq_true, if_false, if_neg howner]
  · simp only [createAccount, if_pos rfl]
    split
    · rfl
    · simp_all

/-- C5 witness: owner 1, salt 0, empty chain in the concrete context. -/
theorem createAccount_twice_idempotent_witness :
    ((1 : Nat) ≠ 0 ∧ emptyChain.code (getAddress ctx0 1 0) = false) ∧
    (∃ ch2 : Chain,
      createAccount ctx0 emptyChain 1 0 = .ok (ch2, getAddress ctx0 1 0, true) ∧
      createAccount ctx0 ch2 1 0 = .ok (ch2, getAddress ctx0 1 0, false)) :=
  ⟨⟨one_ne_zero, rfl⟩, createAccount_twice_idempotent ctx0 emptyChain 1 0 one_ne_zero rfl⟩

/-- C5 counterexample: with owner = 0 (and salt 0, empty chain), the first
`createAccount` call does not return `isNew = true` — it reverts with
`AccountCreationFailed`, because the proxy constructor's owner
initialization rejects a zero owner. -/
theorem createAccount_zero_owner_cex :
    createAccount ctx0 emptyChain 0 0 = .error FactoryError.accountCreationFailed := rfl

/-- C6. `getAddress` reads no chain state (it is a pure function of the
factory context, owner and salt), and whenever `createAccount` returns —
whether it materialized the account or found it already deployed — the
returned identifier is exactly `getAddress ctx owner salt`.  In particular
the value computed before any creation call equals the identifier returned
by a subsequent `createAccount`. -/
theorem getAddress_matches_createAccount (ctx : FactoryCtx) (ch : Chain)
    (owner salt : Nat) (ch2 : Chain) (a : Nat) (isNew : Bool)
    (h : createAccount ctx ch owner salt = .ok (ch2, a, isNew)) :
    a = getAddress ctx owner salt := by
  simp only [createAccount] at h
  split at h
  · simp only [Except.ok.injEq, Prod.mk.injEq] at h
    exact h.2.1.symm
  · split at h
    · exact absurd h (by simp)
    · simp only [Except.ok.injEq, Prod.mk.injEq] at h
      exact h.2.1.symm

set_option maxRecDepth 100000 in
/-- C6 witness: in the concrete context, creating the account for owner 1,
salt 0 returns exactly the counterfactual address computed beforehand. -/
theorem getAddress_matches_createAccount_witness :
    createAccount ctx0 emptyChain 1 0 = .ok (chain1, getAddress ctx0 1 0, true) ∧
    (22925515879700437932606820905353459131857765380 : Nat) = getAddress ctx0 1 0 :=
  ⟨rfl, getAddress_matches_createAccount ctx0 emptyChain 1 0 chain1
    22925515879700437932606820905353459131857765380 true (by rfl)⟩

/-- C7. If account materialization fails inside `createAccount`, the call
reverts with the typed error `AccountCreationFailed` (the only error the
function can raise), and under EVM revert semantics the chain state after
the call is exactly the state before it: no partially-created record for
any key is visible to other callers. -/
theorem createAccount_failure_atomic (ctx : FactoryCtx) (ch : Chain)
    (owner salt : Nat) (e : FactoryError)
    (h : createAccount ctx ch owner salt = .error e) :
    e = .accountCreationFailed ∧ runCreateAccount ctx ch owner salt = ch := by
  constructor
  · cases e
    rfl
  · rw [runCreateAccount, h]

/-- C7 witness: owner 0, salt 0, empty chain — creation fails, the error is
`AccountCreationFailed`, and the chain is unchanged. -/
theorem createAccount_failure_atomic_witness :
    createAccount ctx0 emptyChain 0 0 = .error FactoryError.accountCreationFailed ∧
    (FactoryError.accountCreationFailed = .accountCreationFailed ∧
      runCreateAccount ctx0 emptyChain 0 0 = emptyChain) :=
  ⟨rfl, createAccount_failure_atomic ctx0 emptyChain 0 0 FactoryError.accountCreationFailed rfl⟩

/-- C8. An owner key of zero is always invalid: (1) initializing a fresh
account with owner 0 reverts with the typed `InvalidOwner` error; (2) every
successful owner initialization leaves a nonzero owner; (3) the nonzero
owner invariant is preserved by every state-mutating operation of the
account; (4) strict signature verification with owner 0 raises a typed
error; (5) tolerant signature verification with owner 0 returns false. -/
theorem zero_owner_always_invalid :
    (∀ st : AccountState, st.inited = false →
      accStep st (.initOwner 0) = .error AccountError.invalidOwner) ∧
    (∀ (st st2 : AccountState) (o : Nat),
      accStep st (.initOwner o) = .ok st2 → st2.owner ≠ 0) ∧
    (∀ (st st2 : AccountState) (op : AccountOp),
      st.owner ≠ 0 → accStep st op = .ok st2 → st2.owner ≠ 0) ∧
    (∀ (env : Env) (sig : List Nat) (h : Nat),
      ∃ e, NostrLib.verifyNostrSignature env 0 sig h = .error e) ∧
    (∀ (env : Env) (sig : List Nat) (h : Nat),
      NostrLib.tryVerifyNostrSignature env 0 sig h = false) := by
  refine ⟨?_, ?_, ?_, ?_, ?_⟩
  · intro st hst
    simp [accStep, hst]
  · intro st st2 o h
    simp only [accStep] at h
    split at h
    · exact absurd h (by simp)
    · split at h
      · exact absurd h (by simp)
      · simp only [Except.ok.injEq] at h
        subst h
        simpa using by assumption
  · intro st st2 op hown h
    cases op with
    | initOwner o =>
      simp only [accStep] at h
      split at h
      · exact absurd h (by simp)
      · split at h
        · exact absurd h (by simp)
        · simp only [Except.ok.injEq] at h
          subst h
          simpa using by assumption
    | addDeposit v =>
      simp only [accStep] at h
      split at h
      · exact absurd h (by simp)
      · simp only [Except.ok.injEq] at h
        subst h
        simpa using hown
    | withdrawDepositTo dest amount =>
      simp only [accStep] at h
      split at h
      · exact absurd h (by simp)
      · split at h
        · exact absurd h (by simp)
        · simp only [Except.ok.injEq] at h
          subst h
          simpa using hown
  · intro env sig h
    by_cases hl : sig.length = 64
    · exact ⟨.invalidOwnerAddress, by simp [NostrLib.verifyNostrSignature, hl]⟩
    · exact ⟨.invalidSignatureLength, by simp [NostrLib.verifyNostrSignature, hl]⟩
  · intro env sig h
    simp [NostrLib.tryVerifyNostrSignature]

/-- C8 witness: concrete instances of every part — a fresh account rejects
owner 0; initializing with owner 7 yields a nonzero owner; a deposit on an
account with owner 7 preserves the nonzero owner; strict and tolerant
verification with owner 0 fail on a concrete signature. -/
theorem zero_owner_always_invalid_witness :
    accStep ⟨0, false, 0⟩ (.initOwner 0) = .error AccountError.invalidOwner ∧
    ({ owner := 7, inited := true, deposit := 0 } : AccountState).owner ≠ 0 ∧
    ({ owner := 7, inited := true, deposit := 5 } : AccountState).owner ≠ 0 ∧
    (∃ e, NostrLib.verifyNostrSignature env0 0 [] 0 = .error e) ∧
    NostrLib.tryVerifyNostrSignature env0 0 [] 0 = false :=
  ⟨zero_owner_always_invalid.1 ⟨0, false, 0⟩ rfl,
   zero_owner_always_invalid.2.1 ⟨0, false, 0⟩ _ 7 rfl,
   zero_owner_always_invalid.2.2.1 ⟨7, true, 0⟩ _ (.addDeposit 5) (by decide) rfl,
   zero_owner_always_invalid.2.2.2.1 env0 [] 0,
   zero_owner_always_invalid.2.2.2.2 env0 [] 0⟩

/-- C9. The strict and tolerant verification forms of the `NostrSignatures`
library agree on every input: the strict form raises a typed error exactly
when the tolerant form returns false, and both succeed (the strict form
returns true without raising, the tolerant form returns true) on exactly
the same inputs. -/
theorem strict_and_tolerant_agree (env : Env) (owner : Nat) (sig : List Nat) (h : Nat) :
    ((∃ e, NostrLib.verifyNostrSignature env owner sig h = .error e) ↔
      NostrLib.tryVerifyNostrSignature env owner sig h = false) ∧
    (NostrLib.verifyNostrSignature env owner sig h = .ok true ↔
      NostrLib.tryVerifyNostrSignature env owner sig h = true) := by
  unfold NostrLib.verifyNostrSignature NostrLib.tryVerifyNostrSignature
  by_cases h1 : sig.length = 64
  · by_cases h2 : owner = 0
    · simp [h1, h2]
    · simp only [h1, h2, ne_eq, not_true_eq_false, if_false, false_or, if_neg h2,
        not_false_eq_true, or_false]
      cases hv : verify env owner (beBytesToNat (sig.take 32))
          (beBytesToNat ((sig.drop 32).take 32))
          (env.sha256 (nostrEventMessage owner h)) <;> simp
  · simp [h1]

/-- C10. The account-facing `NostrSignatures.verifyNostrSignature` (the
variant invoked by `NpubAccount._validateSignature`) returns a boolean
exactly when the supplied signature is 64 bytes long, and reverts (an
`Except.error`) exactly when it is not; the same dichotomy propagates
through `_validateSignature`, so a malformed-length signature surfaces as a
revert of validation rather than as a SIG_VALIDATION_FAILED result. -/
theorem verifyNostrSignature_reverts_iff_bad_length (env : Env) (owner : Nat)
    (sig : List Nat) (h : Nat) :
    ((∃ b, NostrSigs.verifyNostrSignature env owner sig h = .ok b) ↔ sig.length = 64) ∧
    ((∃ msg, NostrSigs.verifyNostrSignature env owner sig h = .error msg) ↔
      sig.length ≠ 64) ∧
    ((∃ v, validateSignature env owner sig h = .ok v) ↔ sig.length = 64) := by
  unfold validateSignature NostrSigs.verifyNostrSignature
  by_cases hl : sig.length = 64
  · simp only [hl, ne_eq, not_true_eq_false, if_false]
    refine ⟨by simp, by simp, ?_⟩
    cases verify env owner (beBytesToNat (sig.take 32))
        (beBytesToNat ((sig.drop 32).take 32)) (env.sha256 (signMessage owner h)) <;> simp
  · simp [hl]

end Ethstr


